import Mathlib

/-
Verification of the llm-server UI client library (ui/src/lib/api.ts and
ui/src/components/playground/Playground.tsx) together with models of the
gateway components that the design document specifies (fingerprinter,
completion cache, quota ledger, model registry, auth resolver).

JavaScript strings are modelled as lists of characters, JSON values as an
inductive type, and the JSON.parse builtin as an explicit function
parameter of type Str -> Option Json (parse failure is modelled by none).
-/

namespace LlmServer

/-- JavaScript strings, modelled as lists of characters. -/
abbrev Str := List Char

/-- Whitespace recognised by String.prototype.trim (the ASCII cases). -/
def isWs (c : Char) : Bool :=
  c = ' ' || c = '\t' || c = '\n' || c = '\r'

/-- Model of s.trim(): drop leading and trailing whitespace. -/
def trimChars (s : Str) : Str :=
  ((s.dropWhile isWs).reverse.dropWhile isWs).reverse

/-- Decimal digits of a natural number, with explicit fuel so that the
definition is structural and reduces inside the kernel. -/
def natDigitsAux : Nat → Nat → Str
  | 0, _ => []
  | fuel + 1, n =>
    if n < 10 then [Char.ofNat (48 + n)]
    else natDigitsAux fuel (n / 10) ++ [Char.ofNat (48 + n % 10)]

/-- Model of the JavaScript String() conversion on a natural number. -/
def natToChars (n : Nat) : Str := natDigitsAux (n + 1) n

/-- Model of the JavaScript String() conversion on an integer. -/
def intToChars : Int → Str
  | Int.ofNat n => natToChars n
  | Int.negSucc m => '-' :: natToChars (m + 1)

/-- JSON values. Numbers are modelled as integers: no claim in this
development depends on fractional numeric literals. -/
inductive Json where
  | null : Json
  | bool (b : Bool) : Json
  | num (n : Int) : Json
  | str (s : Str) : Json
  | arr (elems : List Json) : Json
  | obj (fields : List (Str × Json)) : Json

/-- First-match association-list lookup; models JavaScript property access
on an object literal (keys of a parsed JSON object are unique). -/
def assocLookup {κ α : Type} [DecidableEq κ] (l : List (κ × α)) (k : κ) : Option α :=
  match l with
  | [] => none
  | (k1, v) :: rest => if k1 = k then some v else assocLookup rest k

/-- Model of the JavaScript test x.k != null: the property is present and
is not null (an absent property reads as undefined, which also == null). -/
def getNonNull (o : List (Str × Json)) (k : Str) : Option Json :=
  match assocLookup o k with
  | some Json.null => none
  | some v => some v
  | none => none

mutual

/-- Model of the JavaScript String() conversion on a JSON value: strings
stay themselves, arrays join their elements with commas, objects render as
the object placeholder text. -/
def jsString : Json → Str
  | Json.null => ('n' :: 'u' :: 'l' :: ['l'])
  | Json.bool true => ('t' :: 'r' :: 'u' :: ['e'])
  | Json.bool false => ('f' :: 'a' :: 'l' :: 's' :: ['e'])
  | Json.num n => intToChars n
  | Json.str s => s
  | Json.arr es => jsStringList es
  | Json.obj _ =>
      ('[' :: 'o' :: 'b' :: 'j' :: 'e' :: 'c' :: 't' :: ' ' :: 'O' :: 'b' :: 'j' :: 'e' :: 'c' :: 't' :: [']'])

/-- Comma-joined rendering of array elements for jsString; a null element
renders as the empty string, as Array.prototype.toString does. -/
def jsStringList : List Json → Str
  | [] => []
  | e :: es =>
    (match e with
     | Json.null => []
     | v => jsString v) ++ (match es with | [] => [] | _ => ',' :: jsStringList es)

end

/-- Escaping of one character inside a JSON string literal. -/
def jsonEscapeChar (c : Char) : Str :=
  if c = '"' || c = '\\' then ['\\', c]
  else if c = '\n' then ['\\', 'n']
  else if c = '\t' then ['\\', 't']
  else if c = '\r' then ['\\', 'r']
  else [c]

/-- Escaping of a whole string body for JSON.stringify. -/
def jsonEscape : Str → Str
  | [] => []
  | c :: cs => jsonEscapeChar c ++ jsonEscape cs

/-- A quoted JSON string literal. -/
def jsonQuote (s : Str) : Str := '"' :: jsonEscape s ++ ['"']

mutual

/-- Model of JSON.stringify on a JSON value. -/
def jsonStringify : Json → Str
  | Json.null => ('n' :: 'u' :: 'l' :: ['l'])
  | Json.bool true => ('t' :: 'r' :: 'u' :: ['e'])
  | Json.bool false => ('f' :: 'a' :: 'l' :: 's' :: ['e'])
  | Json.num n => intToChars n
  | Json.str s => jsonQuote s
  | Json.arr es => '[' :: jsonStringifyArr es ++ [']']
  | Json.obj fs => Char.ofNat 123 :: jsonStringifyObj fs ++ [Char.ofNat 125]

/-- Comma-joined serialisation of array elements. -/
def jsonStringifyArr : List Json → Str
  | [] => []
  | e :: es => jsonStringify e ++ (match es with | [] => [] | _ => ',' :: jsonStringifyArr es)

/-- Comma-joined serialisation of object fields. -/
def jsonStringifyObj : List (Str × Json) → Str
  | [] => []
  | (k, v) :: fs =>
    jsonQuote k ++ ':' :: jsonStringify v
      ++ (match fs with | [] => [] | _ => ',' :: jsonStringifyObj fs)

end

/-- An HTTP response as the client observes it: a status code and the body
text (res.text() is read exactly once in requestJson). -/
structure HttpResponse where
  status : Nat
  body : Str

/-- Model of the fetch Response.ok flag: status in the range 200..299. -/
def resOk (status : Nat) : Bool :=
  decide (200 ≤ status) && decide (status < 300)

/-- The ApiError class of ui/src/lib/api.ts: HTTP status, the (preview of
the) body text, the parsed body when available, and the Error message
produced by ApiError.makeMessage. -/
structure ApiError where
  status : Nat
  bodyText : Str
  bodyJson : Option Json
  message : Str

/-- The errObj chosen by ApiError.makeMessage: the nested error object when
the body has an object-valued error property, otherwise the body itself. -/
def errObjOf (o : List (Str × Json)) : List (Str × Json) :=
  match assocLookup o ('e' :: 'r' :: 'r' :: 'o' :: ['r']) with
  | some (Json.obj e) => e
  | _ => o

/-- The code string extracted by ApiError.makeMessage: errObj.code when
present and non-null, else bodyJson.code, else null. -/
def codeOf (o : List (Str × Json)) : Option Str :=
  match getNonNull (errObjOf o) ('c' :: 'o' :: 'd' :: ['e']) with
  | some v => some (jsString v)
  | none =>
    match getNonNull o ('c' :: 'o' :: 'd' :: ['e']) with
    | some v => some (jsString v)
    | none => none

/-- The message string extracted by ApiError.makeMessage: errObj.message,
else errObj.detail (stringified when not a string), else bodyJson.message,
else null. -/
def msgOf (o : List (Str × Json)) : Option Str :=
  match getNonNull (errObjOf o) ('m' :: 'e' :: 's' :: 's' :: 'a' :: 'g' :: ['e']) with
  | some v => some (jsString v)
  | none =>
    match getNonNull (errObjOf o) ('d' :: 'e' :: 't' :: 'a' :: 'i' :: ['l']) with
    | some (Json.str s) => some s
    | some v => some (jsonStringify v)
    | none =>
      match getNonNull o ('m' :: 'e' :: 's' :: 's' :: 'a' :: 'g' :: ['e']) with
      | some v => some (jsString v)
      | none => none

/-- The request id extracted by ApiError.makeMessage from the top-level
body object. -/
def ridOf (o : List (Str × Json)) : Option Str :=
  match getNonNull o ("request_id".toList) with
  | some v => some (jsString v)
  | none => none

/-- JavaScript truthiness of a string-or-null value: present and not the
empty string. -/
def optTruthy (v : Option Str) : Bool :=
  match v with
  | some s => !s.isEmpty
  | none => false

/-- Model of ApiError.makeMessage in ui/src/lib/api.ts. When the parsed
body is an object carrying a truthy code or message, the message is
"HTTP status: code - message (request_id=rid)" with the dash part present
only for a truthy message and the request id part only when present;
otherwise it is "HTTP status: bodyText". A parsed array or primitive
carries no code property, so it takes the fallback branch as well. -/
def ApiError.makeMessage (status : Nat) (bodyText : Str) (bodyJson : Option Json) : Str :=
  match bodyJson with
  | some (Json.obj o) =>
    if optTruthy (codeOf o) || optTruthy (msgOf o) then
      let base := "HTTP ".toList ++ natToChars status ++ ": ".toList
        ++ ((codeOf o).getD ("error".toList))
        ++ (match msgOf o with
            | some m => if m.isEmpty then [] else " — ".toList ++ m
            | none => [])
      match ridOf o with
      | some r => base ++ " (request_id=".toList ++ r ++ [')']
      | none => base
    else "HTTP ".toList ++ natToChars status ++ ": ".toList ++ bodyText
  | _ => "HTTP ".toList ++ natToChars status ++ ": ".toList ++ bodyText

/-- The ApiError constructor: stores its three arguments and computes the
Error message with ApiError.makeMessage. -/
def ApiError.make (status : Nat) (bodyText : Str) (bodyJson : Option Json) : ApiError :=
  { status := status
    bodyText := bodyText
    bodyJson := bodyJson
    message := ApiError.makeMessage status bodyText bodyJson }

/-- Model of requestJson in ui/src/lib/api.ts. The jparse parameter models
the JSON.parse builtin, with none standing for a parse exception. The body
is read once; only its first 4000 characters are offered to the bounded
parse, and that parse is attempted only when the preview has non-blank
content. A non-ok status throws ApiError with the preview as body text; an
all-blank body yields the empty object; otherwise the bounded parse result
is preferred, then one full-body parse, and a final failure throws ApiError
with the preview prefixed by a non-JSON marker. -/
def requestJson (jparse : Str → Option Json) (resp : HttpResponse) : Except ApiError Json :=
  let bodyText := resp.body
  let preview := bodyText.take 4000
  let bodyJson : Option Json :=
    if (trimChars preview).isEmpty then none else jparse preview
  if !resOk resp.status then
    Except.error (ApiError.make resp.status preview bodyJson)
  else if (trimChars bodyText).isEmpty then
    Except.ok (Json.obj [])
  else
    match bodyJson with
    | some j => Except.ok j
    | none =>
      match jparse bodyText with
      | some full => Except.ok full
      | none =>
        Except.error (ApiError.make resp.status ("Non-JSON response: ".toList ++ preview) none)

/-- Model of authHeaders in ui/src/lib/api.ts: the X-API-Key header is sent
exactly when the configured API key is truthy (set and non-empty). -/
def authHeaders (apiKey : Option Str) : List (Str × Str) :=
  match apiKey with
  | some k => if k.isEmpty then [] else [("X-API-Key".toList, k)]
  | none => []

/-- The GenerateRequestBody interface of ui/src/lib/api.ts: prompt is
required, every other field is optional. Optional absent fields are
modelled as none and are omitted by JSON.stringify. -/
structure GenerateRequestBody where
  prompt : Str
  max_new_tokens : Option Int := none
  temperature : Option Int := none
  top_p : Option Int := none
  top_k : Option Int := none
  stop : Option (List Str) := none
  model : Option Str := none
  cache : Option Bool := none

/-- One optional field of a stringified object: present with its key when
the value is defined, omitted when it is undefined. -/
def optField {α : Type} (k : Str) (g : α → Json) (o : Option α) : List (Str × Json) :=
  match o with
  | some x => [(k, g x)]
  | none => []

/-- The JSON object that JSON.stringify produces from a
GenerateRequestBody: the present fields, in interface declaration order,
with absent (undefined) fields omitted. -/
def serializeGenerateBody (b : GenerateRequestBody) : List (Str × Json) :=
  [("prompt".toList, Json.str b.prompt)]
  ++ optField ("max_new_tokens".toList) Json.num b.max_new_tokens
  ++ optField ("temperature".toList) Json.num b.temperature
  ++ optField ("top_p".toList) Json.num b.top_p
  ++ optField ("top_k".toList) Json.num b.top_k
  ++ optField ("stop".toList) (fun xs => Json.arr (xs.map Json.str)) b.stop
  ++ optField ("model".toList) Json.str b.model
  ++ optField ("cache".toList) Json.bool b.cache

/-- The field names that the generation request interface admits. -/
def allowedGenerateKeys : List Str :=
  ["model".toList, "prompt".toList, "max_new_tokens".toList, "temperature".toList,
   "top_p".toList, "top_k".toList, "stop".toList, "cache".toList]

/-- An outgoing HTTP request as the client builds it. -/
structure HttpRequest where
  method : Str
  path : Str
  headers : List (Str × Str)
  body : Str

/-- The HTTP request that callGenerate sends: POST /v1/generate with the
auth headers, a JSON content type, and the stringified body. -/
def callGenerateRequest (apiKey : Option Str) (b : GenerateRequestBody) : HttpRequest :=
  { method := "POST".toList
    path := "/v1/generate".toList
    headers := authHeaders apiKey ++ [("Content-Type".toList, "application/json".toList)]
    body := jsonStringify (Json.obj (serializeGenerateBody b)) }

/-- The response handling of callGenerate: it returns requestJson applied
to the response of the POST (the parsed JSON is handed back unchanged). -/
def callGenerate (jparse : Str → Option Json) (resp : HttpResponse) : Except ApiError Json :=
  requestJson jparse resp

/-- Whether an optional JSON value is a string. -/
def isStrJson : Option Json → Bool
  | some (Json.str _) => true
  | _ => false

/-- Whether an optional JSON value is a boolean. -/
def isBoolJson : Option Json → Bool
  | some (Json.bool _) => true
  | _ => false

/-- Whether a JSON value is an object with exactly the three fields of the
GenerateResponseBody interface: model (string), output (string) and
cached (boolean). -/
def isGenerateResponseShape : Json → Bool
  | Json.obj o =>
    decide (o.length = 3)
      && isStrJson (assocLookup o ("model".toList))
      && isStrJson (assocLookup o ("output".toList))
      && isBoolJson (assocLookup o ("cached".toList))
  | _ => false

/-- Model of s.endsWith(suffix): the last characters of s equal suffix. -/
def strEndsWith (s suf : Str) : Bool :=
  decide (suf.length ≤ s.length) && decide (s.drop (s.length - suf.length) = suf)

/-- Model of the initialiser of the module-level API_BASE variable: the
trimmed VITE_API_BASE_URL environment value when truthy, else "/api". -/
def initApiBase (env : Option Str) : Str :=
  match env with
  | some s => if (trimChars s).isEmpty then "/api".toList else trimChars s
  | none => "/api".toList

/-- Model of setApiBaseUrl in ui/src/lib/api.ts, as a function from the
current API_BASE value and the argument to the new API_BASE value. A null,
undefined or all-blank argument leaves the base unchanged; the literal
"/api" is kept; otherwise one trailing slash is removed and "/api" is
appended unless already present as a suffix. -/
def setApiBaseUrl (cur : Str) (base : Option Str) : Str :=
  let s := trimChars (match base with | some b => b | none => [])
  if s.isEmpty then cur
  else if s = "/api".toList then "/api".toList
  else
    let noTrail := if strEndsWith s ['/'] then s.dropLast else s
    if strEndsWith noTrail ("/api".toList) then noTrail else noTrail ++ "/api".toList

/-- Model of getApiBaseUrl: it returns the current API_BASE value. -/
def getApiBaseUrl (cur : Str) : Str := cur

/-- The optional filter and pagination parameters of adminListLogs. -/
structure AdminLogsParams where
  model_id : Option Str := none
  api_key : Option Str := none
  route : Option Str := none
  from_ts : Option Str := none
  to_ts : Option Str := none
  limit : Option Int := none
  offset : Option Int := none

/-- One optional filter entry of the adminListLogs query string: included
exactly when the provided value is truthy (present and non-empty). -/
def filterParam (k : Str) (v : Option Str) : List (Str × Str) :=
  match v with
  | some s => if s.isEmpty then [] else [(k, s)]
  | none => []

/-- The URLSearchParams pairs that adminListLogs builds: the five filters
when truthy, then limit (defaulting to 50) and offset (defaulting to 0).
The whole params object may itself be absent. -/
def adminListLogsQuery (params : Option AdminLogsParams) : List (Str × Str) :=
  let p := match params with | some p => p | none => {}
  filterParam ("model_id".toList) p.model_id
  ++ filterParam ("api_key".toList) p.api_key
  ++ filterParam ("route".toList) p.route
  ++ filterParam ("from_ts".toList) p.from_ts
  ++ filterParam ("to_ts".toList) p.to_ts
  ++ [("limit".toList, intToChars ((p.limit).getD 50))]
  ++ [("offset".toList, intToChars ((p.offset).getD 0))]

/-- Whether a query-pair list carries the given key. -/
def hasQueryKey (q : List (Str × Str)) (k : Str) : Bool :=
  q.any (fun kv => kv.1 = k)

/-- The request body built by handleRunGenerate in Playground.tsx: prompt,
max_new_tokens and temperature always, and the model field exactly when
the trimmed model override is truthy. -/
def handleRunGenerateBody (prompt : Str) (genMaxNewTokens genTemperature : Int)
    (modelOverride : Str) : GenerateRequestBody :=
  { prompt := prompt
    max_new_tokens := some genMaxNewTokens
    temperature := some genTemperature
    model :=
      if (trimChars modelOverride).isEmpty then none else some (trimChars modelOverride) }

/-- Modelled from the spec: a floating-point generation parameter, written
as a decimal mantissa times ten to the minus exp10. The backend
fingerprinter that normalises such parameters is not part of src. -/
structure DecFloat where
  mantissa : Int
  exp10 : Nat
deriving DecidableEq

/-- Modelled from the spec: normalisation of a floating-point parameter to
a fixed precision of six decimal places (the value times ten to the sixth,
rounded half-up on the seventh decimal). Two representations of the same
value normalise identically. -/
def normFloat6 (x : DecFloat) : Int :=
  if x.exp10 ≤ 6 then x.mantissa * (10 : Int) ^ (6 - x.exp10)
  else (2 * x.mantissa + (10 : Int) ^ (x.exp10 - 6)) / (2 * (10 : Int) ^ (x.exp10 - 6))

/-- Modelled from the spec: the generation parameters of a request, every
field optional (absent means use the configured default), with the stop
sequences as an ordered list. -/
structure GenParams where
  max_new_tokens : Option Int := none
  temperature : Option DecFloat := none
  top_p : Option DecFloat := none
  top_k : Option Int := none
  stop : List Str := []

/-- Modelled from the spec: the configured parameter defaults that the
fingerprinter fills in before hashing. -/
structure ParamDefaults where
  max_new_tokens : Int
  temperature : DecFloat
  top_p : DecFloat
  top_k : Int

/-- Modelled from the spec: a fully normalised parameter set, with the
floating-point parameters at fixed precision and the stop list
de-duplicated (order preserved). -/
structure NormalizedParams where
  max_new_tokens : Int
  temperature6 : Int
  top_p6 : Int
  top_k : Int
  stop : List Str
deriving DecidableEq

/-- Order-preserving de-duplication: the first occurrence of each stop
sequence is kept. -/
def dedupKeepFirst (seen : List Str) : List Str → List Str
  | [] => []
  | x :: xs =>
    if x ∈ seen then dedupKeepFirst seen xs
    else x :: dedupKeepFirst (x :: seen) xs

/-- Modelled from the spec: parameter normalisation before hashing.
Defaults are filled in, floating-point parameters are brought to the fixed
precision, and the stop list is de-duplicated preserving order. -/
def normalizeParams (d : ParamDefaults) (p : GenParams) : NormalizedParams :=
  { max_new_tokens := p.max_new_tokens.getD d.max_new_tokens
    temperature6 := normFloat6 (p.temperature.getD d.temperature)
    top_p6 := normFloat6 (p.top_p.getD d.top_p)
    top_k := p.top_k.getD d.top_k
    stop := dedupKeepFirst [] p.stop }

/-- Modelled from the spec: the failure mode of the fingerprinter. -/
inductive FingerprintError where
  | InvalidRequest : FingerprintError
deriving DecidableEq

/-- Modelled from the spec: the cache key, derived from the resolved model
id, the prompt bytes and the normalised parameter set. The hash itself is
modelled as the canonical normalised tuple, so equality of keys is
equality of normalised inputs. -/
structure Fingerprint where
  model : Str
  prompt : Str
  params : NormalizedParams
deriving DecidableEq

/-- Modelled from the spec: the fingerprint function. Malformed input (an
empty model id or a negative token count) is rejected with InvalidRequest;
otherwise the key is derived from the normalised request. -/
def fingerprint (d : ParamDefaults) (modelId : Str) (prompt : Str) (p : GenParams) :
    Except FingerprintError Fingerprint :=
  if modelId.isEmpty then Except.error FingerprintError.InvalidRequest
  else if (match p.max_new_tokens with | some n => decide (n < 0) | none => false) then
    Except.error FingerprintError.InvalidRequest
  else Except.ok ⟨modelId, prompt, normalizeParams d p⟩

/-- Modelled from the spec: the per-fingerprint state of the completion
cache: either a computation is in flight with a list of waiting callers,
or a result is stored. Absent means no entry and nothing in flight. -/
inductive FlightState where
  | inflight (waiters : List Nat) : FlightState
  | stored (result : Str) : FlightState
deriving DecidableEq

/-- Modelled from the spec: the completion cache state, an association
from fingerprint ids to per-fingerprint flight state. -/
abbrev CacheState := List (Nat × FlightState)

/-- Replace or insert the entry of one fingerprint. -/
def setEntry (s : CacheState) (fp : Nat) (v : FlightState) : CacheState :=
  match s with
  | [] => [(fp, v)]
  | (k, w) :: rest => if k = fp then (k, v) :: rest else (k, w) :: setEntry rest fp v

/-- Remove the entry of one fingerprint (a dictionary delete: after it the
fingerprint has no entry at all). -/
def removeEntry (s : CacheState) (fp : Nat) : CacheState :=
  match s with
  | [] => []
  | (k, w) :: rest => if k = fp then removeEntry rest fp else (k, w) :: removeEntry rest fp

/-- Modelled from the spec: the events of the single-flight cache. A call
is a get_or_compute arrival; the finish events are the completion of the
in-flight computation of one fingerprint. -/
inductive CacheEv where
  | call (caller fp : Nat) : CacheEv
  | finishOk (fp : Nat) (r : Str) : CacheEv
  | finishErr (fp : Nat) : CacheEv

/-- Modelled from the spec: the observable outputs of one cache step: a
backend invocation, a reply served from the stored entry, a reply released
to a waiter with the freshly computed result, or a propagated failure. -/
inductive CacheOut where
  | invokeBackend (fp : Nat) : CacheOut
  | replyHit (caller fp : Nat) (r : Str) : CacheOut
  | replyResult (caller fp : Nat) (r : Str) : CacheOut
  | replyFailure (caller fp : Nat) : CacheOut
deriving DecidableEq

/-- Modelled from the spec: one atomic step of the single-flight
completion cache. A call on a stored entry replies immediately from the
cache; a call while a computation is in flight joins the waiter list and
invokes nothing; a call on an absent entry becomes the single leader and
invokes the backend once. A successful finish stores the result and only
then releases every waiter with exactly that result; a failed finish
removes the entry (no poisoning) and every waiter observes the failure. -/
def cacheStep (s : CacheState) : CacheEv → CacheState × List CacheOut
  | CacheEv.call c fp =>
    match assocLookup s fp with
    | some (FlightState.stored r) => (s, [CacheOut.replyHit c fp r])
    | some (FlightState.inflight ws) => (setEntry s fp (FlightState.inflight (ws ++ [c])), [])
    | none => (setEntry s fp (FlightState.inflight [c]), [CacheOut.invokeBackend fp])
  | CacheEv.finishOk fp r =>
    match assocLookup s fp with
    | some (FlightState.inflight ws) =>
      (setEntry s fp (FlightState.stored r), ws.map (fun c => CacheOut.replyResult c fp r))
    | _ => (s, [])
  | CacheEv.finishErr fp =>
    match assocLookup s fp with
    | some (FlightState.inflight ws) =>
      (removeEntry s fp, ws.map (fun c => CacheOut.replyFailure c fp))
    | _ => (s, [])

/-- Run of the cache over a list of interleaved events, accumulating the
outputs. -/
def cacheRun (s : CacheState) : List CacheEv → CacheState × List CacheOut
  | [] => (s, [])
  | e :: es =>
    ((cacheRun (cacheStep s e).1 es).1, (cacheStep s e).2 ++ (cacheRun (cacheStep s e).1 es).2)

/-- Whether an output is a backend invocation for the given fingerprint. -/
def isInvoke (o : CacheOut) (fp : Nat) : Bool :=
  match o with
  | CacheOut.invokeBackend f => decide (f = fp)
  | _ => false

/-- How many backend invocations for one fingerprint a list of outputs
carries. -/
def countInvocations (outs : List CacheOut) (fp : Nat) : Nat :=
  outs.countP (fun o => isInvoke o fp)

/-- Whether an event is a completion event for the given fingerprint. -/
def finishTouches (e : CacheEv) (fp : Nat) : Bool :=
  match e with
  | CacheEv.finishOk f _ => decide (f = fp)
  | CacheEv.finishErr f => decide (f = fp)
  | _ => false

/-- How many completion events for one fingerprint a list of events
carries. -/
def countFinishes (evs : List CacheEv) (fp : Nat) : Nat :=
  evs.countP (fun e => finishTouches e fp)

/-- One when the fingerprint has no entry (a new leader could start), zero
otherwise. -/
def fpSlack (s : CacheState) (fp : Nat) : Nat :=
  match assocLookup s fp with
  | none => 1
  | some _ => 0

/-- Modelled from the spec: the per-caller quota and concurrency record of
the quota ledger. -/
structure CallerState where
  quotaLimit : Nat
  used : Nat
  inflight : Nat
  ceiling : Nat
deriving DecidableEq

/-- Modelled from the spec: the denial reasons of admission. -/
inductive AdmitError where
  | QuotaExceeded : AdmitError
  | ConcurrencyLimited : AdmitError
deriving DecidableEq

/-- Modelled from the spec: the admission decision. -/
inductive AdmitDecision where
  | admitted : AdmitDecision
  | denied (e : AdmitError) : AdmitDecision
deriving DecidableEq

/-- Modelled from the spec: admitRequest of the quota ledger, as a function from
the caller state to the decision and the subsequent caller state. The
monthly quota is checked first (remaining must be positive), then the
concurrency ceiling; a denial leaves the state untouched and an admission
atomically increments the in-flight counter. -/
def admitRequest (c : CallerState) : AdmitDecision × CallerState :=
  if c.quotaLimit ≤ c.used then (AdmitDecision.denied AdmitError.QuotaExceeded, c)
  else if c.ceiling ≤ c.inflight then (AdmitDecision.denied AdmitError.ConcurrencyLimited, c)
  else (AdmitDecision.admitted, { c with inflight := c.inflight + 1 })

/-- Modelled from the spec: the kind of a backend handle. -/
inductive BackendKind where
  | inProcess : BackendKind
  | remoteHttp : BackendKind
deriving DecidableEq

/-- Modelled from the spec: a backend handle, identifying one model. -/
structure BackendHandle where
  id : Str
  kind : BackendKind
deriving DecidableEq

/-- Modelled from the spec: the model registry, a mapping from model id to
backend handle plus the designated default model id. -/
structure ModelRegistry where
  models : List (Str × BackendHandle)
  defaultModel : Str

/-- Modelled from the spec: the resolution failure for an unknown model
selector. -/
inductive ResolveError where
  | ModelNotFound : ResolveError
deriving DecidableEq

/-- Modelled from the spec: resolve of the model registry. An absent
selector resolves to the default handle; a present but unknown selector
fails with ModelNotFound. -/
def resolve (reg : ModelRegistry) (selector : Option Str) : Except ResolveError BackendHandle :=
  match selector with
  | none =>
    match assocLookup reg.models reg.defaultModel with
    | some h => Except.ok h
    | none => Except.error ResolveError.ModelNotFound
  | some m =>
    match assocLookup reg.models m with
    | some h => Except.ok h
    | none => Except.error ResolveError.ModelNotFound

/-- Modelled from the spec: resolution followed by backend invocation,
instrumented with the number of backend calls made, to express that a
failed resolution never reaches a backend. -/
def resolveAndGenerate (reg : ModelRegistry) (selector : Option Str)
    (gen : BackendHandle → Str) : Except ResolveError Str × Nat :=
  match resolve reg selector with
  | Except.ok h => (Except.ok (gen h), 1)
  | Except.error e => (Except.error e, 0)

/-- Modelled from the spec: the failure modes of the auth resolver. -/
inductive AuthError where
  | Unauthenticated : AuthError
  | Disabled : AuthError
deriving DecidableEq

/-- Modelled from the spec: the HTTP status class of each auth failure. -/
def authErrorStatus : AuthError → Nat
  | AuthError.Unauthenticated => 401
  | AuthError.Disabled => 403

/-- Modelled from the spec: a caller identity record in the external
store: the active flag, role and quota snapshot. -/
structure CallerIdentity where
  role : Str
  active : Bool
  quotaUsed : Nat
  quotaLimit : Nat
deriving DecidableEq

/-- Modelled from the spec: the auth resolver. An absent or unknown
credential fails with Unauthenticated; a known but deactivated identity
fails with Disabled; otherwise the identity is returned, read-only. -/
def resolveCredential (store : List (Str × CallerIdentity)) (cred : Option Str) :
    Except AuthError CallerIdentity :=
  match cred with
  | none => Except.error AuthError.Unauthenticated
  | some c =>
    match assocLookup store c with
    | none => Except.error AuthError.Unauthenticated
    | some idr =>
      if idr.active then Except.ok idr else Except.error AuthError.Disabled

/-- The substring relation used to state that an error message carries a
piece of text. -/
def containsSub (s t : Str) : Prop := ∃ a b, s = a ++ t ++ b

theorem trimChars_eq_nil_iff (s : Str) : trimChars s = [] ↔ ∀ c ∈ s, isWs c := by
  constructor
  · intro h c hc
    rw [trimChars, List.reverse_eq_nil_iff, List.dropWhile_eq_nil_iff] at h
    have hsplit : c ∈ s.takeWhile isWs ∨ c ∈ s.dropWhile isWs := by
      rw [← List.mem_append, List.takeWhile_append_dropWhile]
      exact hc
    cases hsplit with
    | inl h1 => exact List.mem_takeWhile_imp h1
    | inr h2 => exact h c (List.mem_reverse.mpr h2)
  · intro h
    have h1 : s.dropWhile isWs = [] :=
      List.dropWhile_eq_nil_iff.mpr fun x hx => h x hx
    rw [trimChars, h1]
    rfl

theorem trimChars_take_nonblank (s : Str) (n : Nat)
    (h : (trimChars (s.take n)).isEmpty = false) : (trimChars s).isEmpty = false := by
  cases hb : (trimChars s).isEmpty with
  | false => rfl
  | true =>
    exfalso
    have hall : ∀ c ∈ s, isWs c :=
      (trimChars_eq_nil_iff s).mp (List.isEmpty_iff.mp hb)
    have htake : trimChars (s.take n) = [] :=
      (trimChars_eq_nil_iff _).mpr fun c hc => hall c ((List.take_sublist n s).subset hc)
    rw [htake] at h
    simp at h

theorem strEndsWith_iff (s suf : Str) : strEndsWith s suf = true ↔ ∃ t, s = t ++ suf := by
  rw [strEndsWith]
  simp only [Bool.and_eq_true, decide_eq_true_eq]
  constructor
  · rintro ⟨hlen, hdrop⟩
    exact ⟨s.take (s.length - suf.length), by conv_lhs => rw [← List.take_append_drop (s.length - suf.length) s, hdrop]⟩
  · rintro ⟨t, rfl⟩
    have hl : (t ++ suf).length - suf.length = t.length := by
      simp [List.length_append]
    constructor
    · simp [List.length_append]
    · rw [hl, List.drop_left]

theorem strEndsWith_api_not_slash (s : Str)
    (h : strEndsWith s ("/api".toList) = true) : strEndsWith s ['/'] = false := by
  rcases (strEndsWith_iff s _).mp h with ⟨t, ht⟩
  cases hb : strEndsWith s ['/'] with
  | false => rfl
  | true =>
    exfalso
    rcases (strEndsWith_iff s _).mp hb with ⟨u, hu⟩
    have hrev : (t ++ "/api".toList).reverse = (u ++ ['/']).reverse := by
      rw [← ht, ← hu]
    simp [List.reverse_append] at hrev

/-- C8 (amended): a null, undefined or all-blank argument leaves the API
base unchanged; any other argument yields a base that ends with "/api"
and has no trailing slash; and whenever the current base already ends
with "/api" (in particular the default base and every base produced by
setApiBaseUrl), feeding getApiBaseUrl back into setApiBaseUrl leaves the
base unchanged. -/
theorem setApiBaseUrl_spec :
    (∀ cur, setApiBaseUrl cur none = cur)
    ∧ (∀ cur b, trimChars b = [] → setApiBaseUrl cur (some b) = cur)
    ∧ (∀ cur b, trimChars b ≠ [] →
        strEndsWith (setApiBaseUrl cur (some b)) ("/api".toList) = true
        ∧ strEndsWith (setApiBaseUrl cur (some b)) ['/'] = false)
    ∧ (∀ cur, strEndsWith cur ("/api".toList) = true → trimChars cur = cur →
        setApiBaseUrl cur (some (getApiBaseUrl cur)) = cur) := by
  refine ⟨?_, ?_, ?_, ?_⟩
  · intro cur
    rfl
  · intro cur b hb
    simp [setApiBaseUrl, hb]
  · intro cur b hb
    have hsuffix : ∀ r : Str, strEndsWith r ("/api".toList) = true →
        strEndsWith r ("/api".toList) = true ∧ strEndsWith r ['/'] = false :=
      fun r hr => ⟨hr, strEndsWith_api_not_slash r hr⟩
    rw [setApiBaseUrl]
    simp only [List.isEmpty_iff, hb, if_false]
    by_cases h1 : trimChars b = "/api".toList
    · rw [if_pos h1]
      exact hsuffix _ (by decide)
    · rw [if_neg h1]
      by_cases h2 : strEndsWith (if strEndsWith (trimChars b) ['/'] = true
          then (trimChars b).dropLast else trimChars b) ("/api".toList) = true
      · rw [if_pos h2]
        exact hsuffix _ h2
      · rw [if_neg h2]
        refine hsuffix _ ((strEndsWith_iff _ _).mpr ⟨_, rfl⟩)
  · intro cur hapi htrim
    rcases (strEndsWith_iff cur _).mp hapi with ⟨t, ht⟩
    have hnil : ¬ (cur = []) := by
      rw [ht]
      simp
    rw [getApiBaseUrl, setApiBaseUrl]
    simp only [htrim, List.isEmpty_iff, hnil, if_false]
    by_cases h1 : cur = "/api".toList
    · rw [if_pos h1]
      exact h1.symm
    · rw [if_neg h1]
      have hslash : ¬ (strEndsWith cur ['/'] = true) := by
        rw [strEndsWith_api_not_slash cur hapi]
        exact Bool.false_ne_true
      rw [if_neg hslash, if_pos hapi]

/-- C8 counterexample: when the base was initialised from the environment
value "http://x" (which the initialiser does not normalise), feeding
getApiBaseUrl back into setApiBaseUrl changes the base, so the idempotence
stated by the claim fails. -/
theorem setApiBaseUrl_idempotence_counterexample :
    getApiBaseUrl (initApiBase (some ("http://x".toList))) = "http://x".toList
    ∧ setApiBaseUrl (initApiBase (some ("http://x".toList)))
        (some (getApiBaseUrl (initApiBase (some ("http://x".toList)))))
      ≠ initApiBase (some ("http://x".toList)) := by
  exact ⟨rfl, by decide⟩

/-- C8 witness: the normalisation and idempotence facts evaluated at
concrete inputs. -/
theorem setApiBaseUrl_spec_witness :
    setApiBaseUrl ("/api".toList) (some ("  ".toList)) = "/api".toList
    ∧ strEndsWith (setApiBaseUrl ("/api".toList) (some (" http://h/ ".toList))) ("/api".toList) = true
    ∧ strEndsWith (setApiBaseUrl ("/api".toList) (some (" http://h/ ".toList))) ['/'] = false
    ∧ setApiBaseUrl ("http://h/api".toList) (some (getApiBaseUrl ("http://h/api".toList)))
        = "http://h/api".toList := by
  refine ⟨setApiBaseUrl_spec.2.1 _ _ (by decide), ?_, ?_, setApiBaseUrl_spec.2.2.2 _ (by decide) (by decide)⟩
  · exact (setApiBaseUrl_spec.2.2.1 _ _ (by decide)).1
  · exact (setApiBaseUrl_spec.2.2.1 _ _ (by decide)).2

theorem hasQueryKey_append (a b : List (Str × Str)) (k : Str) :
    hasQueryKey (a ++ b) k = (hasQueryKey a k || hasQueryKey b k) := by
  simp [hasQueryKey, List.any_append]

theorem hasQueryKey_filterParam (k k1 : Str) (v : Option Str) :
    hasQueryKey (filterParam k v) k1 = (decide (k = k1) && optTruthy v) := by
  cases v with
  | none => simp [filterParam, hasQueryKey, optTruthy]
  | some s =>
    cases hs : s.isEmpty with
    | true => simp [filterParam, hasQueryKey, optTruthy, hs]
    | false => simp [filterParam, hasQueryKey, optTruthy, hs]

theorem hasQueryKey_single (k v k1 : Str) :
    hasQueryKey [(k, v)] k1 = decide (k = k1) := by
  simp [hasQueryKey]

theorem assocLookup_filterParam_ne (k k1 : Str) (v : Option Str) (b : List (Str × Str))
    (h : k ≠ k1) : assocLookup (filterParam k v ++ b) k1 = assocLookup b k1 := by
  cases v with
  | none => simp [filterParam]
  | some s =>
    cases hs : s.isEmpty with
    | true => simp [filterParam, hs]
    | false => simp [filterParam, hs, assocLookup, h]

/-- C10: the adminListLogs query always carries limit and offset; limit
defaults to 50 and offset to 0 when omitted; and each of the five filter
keys appears exactly when a truthy value was provided for it. -/
theorem adminListLogsQuery_spec (params : Option AdminLogsParams) :
    hasQueryKey (adminListLogsQuery params) ("limit".toList) = true
    ∧ hasQueryKey (adminListLogsQuery params) ("offset".toList) = true
    ∧ ((params.bind fun p => p.limit) = none →
        assocLookup (adminListLogsQuery params) ("limit".toList) = some ("50".toList))
    ∧ ((params.bind fun p => p.offset) = none →
        assocLookup (adminListLogsQuery params) ("offset".toList) = some ("0".toList))
    ∧ hasQueryKey (adminListLogsQuery params) ("model_id".toList)
        = optTruthy (params.bind fun p => p.model_id)
    ∧ hasQueryKey (adminListLogsQuery params) ("api_key".toList)
        = optTruthy (params.bind fun p => p.api_key)
    ∧ hasQueryKey (adminListLogsQuery params) ("route".toList)
        = optTruthy (params.bind fun p => p.route)
    ∧ hasQueryKey (adminListLogsQuery params) ("from_ts".toList)
        = optTruthy (params.bind fun p => p.from_ts)
    ∧ hasQueryKey (adminListLogsQuery params) ("to_ts".toList)
        = optTruthy (params.bind fun p => p.to_ts) := by
  have hp : ∃ p : AdminLogsParams, adminListLogsQuery params
      = adminListLogsQuery (some p)
      ∧ (params.bind fun q => q.limit) = p.limit
      ∧ (params.bind fun q => q.offset) = p.offset
      ∧ (params.bind fun q => q.model_id) = p.model_id
      ∧ (params.bind fun q => q.api_key) = p.api_key
      ∧ (params.bind fun q => q.route) = p.route
      ∧ (params.bind fun q => q.from_ts) = p.from_ts
      ∧ (params.bind fun q => q.to_ts) = p.to_ts := by
    cases params with
    | none => exact ⟨{}, rfl, rfl, rfl, rfl, rfl, rfl, rfl, rfl⟩
    | some p => exact ⟨p, rfl, rfl, rfl, rfl, rfl, rfl, rfl, rfl⟩
  rcases hp with ⟨p, hq, h1, h2, h3, h4, h5, h6, h7⟩
  rw [hq, h1, h2, h3, h4, h5, h6, h7]
  rw [adminListLogsQuery]
  simp only [List.append_assoc]
  refine ⟨?_, ?_, ?_, ?_, ?_, ?_, ?_, ?_, ?_⟩
  · simp +decide [hasQueryKey_append, hasQueryKey_filterParam, hasQueryKey_single]
    try simp +decide [hasQueryKey]
  · simp +decide [hasQueryKey_append, hasQueryKey_filterParam, hasQueryKey_single]
    try simp +decide [hasQueryKey]
  · intro hl
    rw [assocLookup_filterParam_ne ("model_id".toList) ("limit".toList) _ _ (by decide),
      assocLookup_filterParam_ne ("api_key".toList) ("limit".toList) _ _ (by decide),
      assocLookup_filterParam_ne ("route".toList) ("limit".toList) _ _ (by decide),
      assocLookup_filterParam_ne ("from_ts".toList) ("limit".toList) _ _ (by decide),
      assocLookup_filterParam_ne ("to_ts".toList) ("limit".toList) _ _ (by decide), hl]
    rfl
  · intro hl
    rw [assocLookup_filterParam_ne ("model_id".toList) ("offset".toList) _ _ (by decide),
      assocLookup_filterParam_ne ("api_key".toList) ("offset".toList) _ _ (by decide),
      assocLookup_filterParam_ne ("route".toList) ("offset".toList) _ _ (by decide),
      assocLookup_filterParam_ne ("from_ts".toList) ("offset".toList) _ _ (by decide),
      assocLookup_filterParam_ne ("to_ts".toList) ("offset".toList) _ _ (by decide), hl]
    rfl
  · simp +decide [hasQueryKey_append, hasQueryKey_filterParam, hasQueryKey_single]
    try simp +decide [hasQueryKey]
  · simp +decide [hasQueryKey_append, hasQueryKey_filterParam, hasQueryKey_single]
    try simp +decide [hasQueryKey]
  · simp +decide [hasQueryKey_append, hasQueryKey_filterParam, hasQueryKey_single]
    try simp +decide [hasQueryKey]
  · simp +decide [hasQueryKey_append, hasQueryKey_filterParam, hasQueryKey_single]
    try simp +decide [hasQueryKey]
  · simp +decide [hasQueryKey_append, hasQueryKey_filterParam, hasQueryKey_single]
    try simp +decide [hasQueryKey]

/-- C10 witness: the query evaluated at the empty parameter record. -/
theorem adminListLogsQuery_spec_witness :
    hasQueryKey (adminListLogsQuery (some {})) ("limit".toList) = true
    ∧ assocLookup (adminListLogsQuery (some {})) ("limit".toList) = some ("50".toList)
    ∧ assocLookup (adminListLogsQuery (some {})) ("offset".toList) = some ("0".toList)
    ∧ hasQueryKey (adminListLogsQuery (some {})) ("model_id".toList) = false := by
  refine ⟨(adminListLogsQuery_spec (some {})).1,
    (adminListLogsQuery_spec (some {})).2.2.1 rfl,
    (adminListLogsQuery_spec (some {})).2.2.2.1 rfl, ?_⟩
  have h := (adminListLogsQuery_spec (some {})).2.2.2.2.1
  simpa using h

theorem containsSub_nil (s : Str) : containsSub s [] :=
  ⟨[], s, by simp⟩

theorem errObjOf_eq_self (o : List (Str × Json))
    (herr : assocLookup o ('e' :: 'r' :: 'r' :: 'o' :: ['r']) = none) : errObjOf o = o := by
  rw [errObjOf, herr]

theorem codeOf_eq (o : List (Str × Json)) (c : Str)
    (herr : assocLookup o ('e' :: 'r' :: 'r' :: 'o' :: ['r']) = none)
    (hcode : getNonNull o ('c' :: 'o' :: 'd' :: ['e']) = some (Json.str c)) :
    codeOf o = some c := by
  rw [codeOf, errObjOf_eq_self o herr, hcode]
  rfl

theorem msgOf_eq (o : List (Str × Json)) (m : Str)
    (herr : assocLookup o ('e' :: 'r' :: 'r' :: 'o' :: ['r']) = none)
    (hmsg : getNonNull o ('m' :: 'e' :: 's' :: 's' :: 'a' :: 'g' :: ['e']) = some (Json.str m)) :
    msgOf o = some m := by
  rw [msgOf, errObjOf_eq_self o herr, hmsg]
  rfl

theorem makeMessage_obj (status : Nat) (bodyText : Str) (o : List (Str × Json)) (c m : Str)
    (hc : codeOf o = some c) (hm : msgOf o = some m)
    (htru : (!c.isEmpty || !m.isEmpty) = true) :
    ApiError.makeMessage status bodyText (some (Json.obj o)) =
      ("HTTP ".toList ++ natToChars status ++ ": ".toList ++ c
        ++ (if m.isEmpty then [] else " — ".toList ++ m))
      ++ (match ridOf o with
          | some r => " (request_id=".toList ++ r ++ [')']
          | none => ([] : Str)) := by
  rw [ApiError.makeMessage, hc, hm]
  simp only [optTruthy, Option.getD_some]
  rw [if_pos htru]
  cases hr : ridOf o with
  | none => simp
  | some r => simp [List.append_assoc]

/-- C2: every non-2xx response makes requestJson raise an ApiError whose
status equals the HTTP status (it never returns a normal result), and when
the parsed body is a JSON object of the structured-error form with a code,
a message, and optionally a request id, the raised error message carries
that code and message and, when present, the request id. -/
theorem requestJson_error_contract :
    (∀ (jparse : Str → Option Json) (resp : HttpResponse), resOk resp.status = false →
      ∃ e : ApiError, requestJson jparse resp = Except.error e ∧ e.status = resp.status)
    ∧ (∀ (jparse : Str → Option Json) (resp : HttpResponse)
        (o : List (Str × Json)) (c m : Str),
        resOk resp.status = false →
        (trimChars (resp.body.take 4000)).isEmpty = false →
        jparse (resp.body.take 4000) = some (Json.obj o) →
        assocLookup o ('e' :: 'r' :: 'r' :: 'o' :: ['r']) = none →
        getNonNull o ('c' :: 'o' :: 'd' :: ['e']) = some (Json.str c) →
        getNonNull o ('m' :: 'e' :: 's' :: 's' :: 'a' :: 'g' :: ['e']) = some (Json.str m) →
        c ≠ [] ∨ m ≠ [] →
        ∃ e : ApiError, requestJson jparse resp = Except.error e ∧ e.status = resp.status
          ∧ containsSub e.message c ∧ containsSub e.message m
          ∧ (∀ r, ridOf o = some r → containsSub e.message r)) := by
  constructor
  · intro jparse resp h
    refine ⟨ApiError.make resp.status (resp.body.take 4000)
      (if (trimChars (resp.body.take 4000)).isEmpty then none
       else jparse (resp.body.take 4000)), ?_, rfl⟩
    rw [requestJson]
    simp only [h, Bool.not_false, if_true]
  · intro jparse resp o c m hok hnb hparse herr hcode hmsg hne
    have htru : (!c.isEmpty || !m.isEmpty) = true := by
      cases hne with
      | inl h =>
        have : c.isEmpty = false := by
          cases hE : c.isEmpty with
          | false => rfl
          | true => exact absurd (List.isEmpty_iff.mp hE) h
        simp [this]
      | inr h =>
        have : m.isEmpty = false := by
          cases hE : m.isEmpty with
          | false => rfl
          | true => exact absurd (List.isEmpty_iff.mp hE) h
        simp [this]
    refine ⟨ApiError.make resp.status (resp.body.take 4000) (some (Json.obj o)), ?_, rfl, ?_, ?_, ?_⟩
    · rw [requestJson]
      simp [hnb, hparse, hok]
    · rw [ApiError.make]
      rw [makeMessage_obj resp.status _ o c m
        (codeOf_eq o c herr hcode) (msgOf_eq o m herr hmsg) htru]
      exact ⟨"HTTP ".toList ++ natToChars resp.status ++ ": ".toList,
        (if m.isEmpty then ([] : Str) else " — ".toList ++ m)
          ++ (match ridOf o with
              | some r => " (request_id=".toList ++ r ++ [')']
              | none => ([] : Str)),
        by simp [List.append_assoc]⟩
    · rw [ApiError.make]
      rw [makeMessage_obj resp.status _ o c m
        (codeOf_eq o c herr hcode) (msgOf_eq o m herr hmsg) htru]
      cases hE : m.isEmpty with
      | true =>
        rw [List.isEmpty_iff.mp hE]
        exact containsSub_nil _
      | false =>
        rw [if_neg Bool.false_ne_true]
        exact ⟨"HTTP ".toList ++ natToChars resp.status ++ ": ".toList ++ c ++ " — ".toList,
          (match ridOf o with
           | some r => " (request_id=".toList ++ r ++ [')']
           | none => ([] : Str)),
          by simp [List.append_assoc]⟩
    · intro r hr
      rw [ApiError.make]
      rw [makeMessage_obj resp.status _ o c m
        (codeOf_eq o c herr hcode) (msgOf_eq o m herr hmsg) htru, hr]
      exact ⟨("HTTP ".toList ++ natToChars resp.status ++ ": ".toList ++ c
        ++ (if m.isEmpty then ([] : Str) else " — ".toList ++ m)) ++ " (request_id=".toList, [')'],
        by simp [List.append_assoc]⟩

/-- A concrete structured error body: the JSON text of an object with a
code, a message and a request id. -/
def sampleErrorFields : List (Str × Json) :=
  [(('c' :: 'o' :: 'd' :: ['e']), Json.str ("quota_exceeded".toList)),
   (('m' :: 'e' :: 's' :: 's' :: 'a' :: 'g' :: ['e']), Json.str ("Monthly quota exceeded".toList)),
   ("request_id".toList, Json.str ('r' :: ['1']))]

/-- The raw JSON text behind sampleErrorFields. -/
def sampleErrorBody : Str :=
  Char.ofNat 123 ::
    ("\"code\":\"quota_exceeded\",\"message\":\"Monthly quota exceeded\",\"request_id\":\"r1\"".toList)
    ++ [Char.ofNat 125]

/-- A parse function that behaves like JSON.parse on the sample body. -/
def sampleParse : Str → Option Json :=
  fun s => if s = sampleErrorBody then some (Json.obj sampleErrorFields) else none

/-- C2 witness: the error contract exercised on a concrete 429 response
with a structured error body. -/
theorem requestJson_error_contract_witness :
    ∃ e : ApiError, requestJson sampleParse ⟨429, sampleErrorBody⟩ = Except.error e
      ∧ e.status = 429
      ∧ containsSub e.message ("quota_exceeded".toList)
      ∧ containsSub e.message ("Monthly quota exceeded".toList)
      ∧ (∀ r, ridOf sampleErrorFields = some r → containsSub e.message r) := by
  exact requestJson_error_contract.2 sampleParse ⟨429, sampleErrorBody⟩ sampleErrorFields
    ("quota_exceeded".toList) ("Monthly quota exceeded".toList)
    (by decide) (by decide) rfl rfl rfl rfl (Or.inl (by decide))

/-- C9 (amended): under a parse function that, like JSON.parse, fails on
all-blank input, requestJson throws exactly when the status is non-2xx or
the body has non-blank content and parses neither within its first 4000
characters nor in full; a 2xx status with an all-blank body returns the
empty object; and a thrown error carries as its body text either the first
4000 characters of the body or that preview behind the non-JSON marker. -/
theorem requestJson_throw_conditions (jparse : Str → Option Json) (resp : HttpResponse)
    (hblank : ∀ x, trimChars x = [] → jparse x = none) :
    ((∃ e, requestJson jparse resp = Except.error e) ↔
      (resOk resp.status = false
        ∨ ((trimChars resp.body).isEmpty = false
            ∧ jparse (resp.body.take 4000) = none ∧ jparse resp.body = none)))
    ∧ (resOk resp.status = true → (trimChars resp.body).isEmpty = true →
        requestJson jparse resp = Except.ok (Json.obj []))
    ∧ (∀ e, requestJson jparse resp = Except.error e →
        e.bodyText = resp.body.take 4000
        ∨ e.bodyText = "Non-JSON response: ".toList ++ resp.body.take 4000) := by
  cases hok : resOk resp.status with
  | false =>
    have hreq : requestJson jparse resp = Except.error
        (ApiError.make resp.status (resp.body.take 4000)
          (if (trimChars (resp.body.take 4000)).isEmpty then none
           else jparse (resp.body.take 4000))) := by
      rw [requestJson]
      simp only [hok, Bool.not_false, if_true]
    refine ⟨⟨fun _ => Or.inl rfl, fun _ => ⟨_, hreq⟩⟩, fun h _ => absurd h (by simp), fun e he => ?_⟩
    rw [hreq] at he
    simp only [Except.error.injEq] at he
    left
    rw [← he]
    rfl
  | true =>
    cases hbody : (trimChars resp.body).isEmpty with
    | true =>
      have hreq : requestJson jparse resp = Except.ok (Json.obj []) := by
        rw [requestJson]
        simp [hok, hbody]
      refine ⟨⟨fun h => ?_, fun h => ?_⟩, fun _ _ => hreq, fun e he => ?_⟩
      · rcases h with ⟨e, he⟩
        rw [hreq] at he
        exact absurd he (by simp)
      · rcases h with h | ⟨h1, _⟩
        · exact absurd h (by simp)
        · exact absurd h1 (by simp)
      · rw [hreq] at he
        exact absurd he (by simp)
    | false =>
      cases hpv : (trimChars (resp.body.take 4000)).isEmpty with
      | true =>
        have hpn : jparse (resp.body.take 4000) = none :=
          hblank _ (List.isEmpty_iff.mp hpv)
        cases hfull : jparse resp.body with
        | some j =>
          have hreq : requestJson jparse resp = Except.ok j := by
            rw [requestJson]
            simp [hok, hbody, hpv, hfull]
          refine ⟨⟨fun h => ?_, fun h => ?_⟩, fun _ h => absurd h (by simp), fun e he => ?_⟩
          · rcases h with ⟨e, he⟩
            rw [hreq] at he
            exact absurd he (by simp)
          · rcases h with h | ⟨_, _, h3⟩
            · exact absurd h (by simp)
            · exact absurd h3 (by simp)
          · rw [hreq] at he
            exact absurd he (by simp)
        | none =>
          have hreq : requestJson jparse resp = Except.error
              (ApiError.make resp.status
                ("Non-JSON response: ".toList ++ resp.body.take 4000) none) := by
            rw [requestJson]
            simp [hok, hbody, hpv, hfull]
          refine ⟨⟨fun _ => Or.inr ⟨rfl, hpn, rfl⟩, fun _ => ⟨_, hreq⟩⟩,
            fun _ h => absurd h (by simp), fun e he => ?_⟩
          rw [hreq] at he
          simp only [Except.error.injEq] at he
          right
          rw [← he]
          rfl
      | false =>
        cases hpj : jparse (resp.body.take 4000) with
        | some j =>
          have hreq : requestJson jparse resp = Except.ok j := by
            rw [requestJson]
            simp [hok, hbody, hpv, hpj]
          refine ⟨⟨fun h => ?_, fun h => ?_⟩, fun _ h => absurd h (by simp), fun e he => ?_⟩
          · rcases h with ⟨e, he⟩
            rw [hreq] at he
            exact absurd he (by simp)
          · rcases h with h | ⟨_, h2, _⟩
            · exact absurd h (by simp)
            · exact absurd h2 (by simp)
          · rw [hreq] at he
            exact absurd he (by simp)
        | none =>
          cases hfull : jparse resp.body with
          | some j =>
            have hreq : requestJson jparse resp = Except.ok j := by
              rw [requestJson]
              simp [hok, hbody, hpv, hpj, hfull]
            refine ⟨⟨fun h => ?_, fun h => ?_⟩, fun _ h => absurd h (by simp), fun e he => ?_⟩
            · rcases h with ⟨e, he⟩
              rw [hreq] at he
              exact absurd he (by simp)
            · rcases h with h | ⟨_, _, h3⟩
              · exact absurd h (by simp)
              · exact absurd h3 (by simp)
            · rw [hreq] at he
              exact absurd he (by simp)
          | none =>
            have hreq : requestJson jparse resp = Except.error
                (ApiError.make resp.status
                  ("Non-JSON response: ".toList ++ resp.body.take 4000) none) := by
              rw [requestJson]
              simp [hok, hbody, hpv, hpj, hfull]
            refine ⟨⟨fun _ => Or.inr ⟨rfl, rfl, rfl⟩, fun _ => ⟨_, hreq⟩⟩,
              fun _ h => absurd h (by simp), fun e he => ?_⟩
            rw [hreq] at he
            simp only [Except.error.injEq] at he
            right
            rw [← he]
            rfl

/-- C9 witness: the amended characterisation exercised on a concrete 404
response, and on a 200 response with an unparseable one-character body. -/
theorem requestJson_throw_conditions_witness :
    (∃ e, requestJson (fun _ => none) ⟨404, ['x']⟩ = Except.error e)
    ∧ requestJson (fun _ => none) ⟨200, [' ', '\t']⟩ = Except.ok (Json.obj [])
    ∧ (∀ e, requestJson (fun _ => none) ⟨200, ['x']⟩ = Except.error e →
        e.bodyText = (['x'] : Str).take 4000
        ∨ e.bodyText = "Non-JSON response: ".toList ++ (['x'] : Str).take 4000) := by
  refine ⟨(requestJson_throw_conditions (fun _ => none) ⟨404, ['x']⟩
      (fun _ _ => rfl)).1.mpr (Or.inl (by decide)),
    (requestJson_throw_conditions (fun _ => none) ⟨200, [' ', '\t']⟩
      (fun _ _ => rfl)).2.1 (by decide) (by decide),
    (requestJson_throw_conditions (fun _ => none) ⟨200, ['x']⟩
      (fun _ _ => rfl)).2.2⟩

/-- C9 counterexample: the claim as stated fails twice on the code. First,
a 200 response whose body is a single blank character is non-empty and
unparseable, so the claim requires a throw, yet requestJson returns the
empty object. Second, when the final full-body parse fails, the thrown
bodyText is the preview behind the text marker "Non-JSON response: ",
which is not a fragment of the first 4000 characters of the body. -/
theorem requestJson_claim_counterexample :
    (requestJson (fun _ => none) ⟨200, [' ']⟩ = Except.ok (Json.obj [])
      ∧ ([' '] : Str) ≠ []
      ∧ (fun _ => (none : Option Json)) (([' '] : Str).take 4000) = none
      ∧ (fun _ => (none : Option Json)) ([' '] : Str) = none
      ∧ resOk 200 = true)
    ∧ (∃ e, requestJson (fun _ => none) ⟨200, ['x']⟩ = Except.error e
        ∧ e.bodyText.isPrefixOf (['x'] : Str) = false) := by
  refine ⟨⟨rfl, by decide, rfl, rfl, rfl⟩,
    ⟨ApiError.make 200 ("Non-JSON response: x".toList) none, rfl, by decide⟩⟩

theorem optField_key {α : Type} (k : Str) (g : α → Json) (o : Option α) (kv : Str × Json)
    (h : kv ∈ optField k g o) : kv.1 = k := by
  cases o with
  | none => simp [optField] at h
  | some x =>
    simp only [optField, List.mem_singleton] at h
    rw [h]

/-- C1: the body that callGenerate sends carries only fields drawn from
the generation interface with the prompt always present, and a successful
JSON response shaped as the GenerateResponseBody record (exactly the
fields model, output, cached, with their declared types) is returned to
the caller unchanged. -/
theorem callGenerate_contract (b : GenerateRequestBody) (jparse : Str → Option Json)
    (resp : HttpResponse) (j : Json)
    (hok : resOk resp.status = true)
    (hnb : (trimChars (resp.body.take 4000)).isEmpty = false)
    (hparse : jparse (resp.body.take 4000) = some j)
    (hshape : isGenerateResponseShape j = true) :
    (∀ kv ∈ serializeGenerateBody b, kv.1 ∈ allowedGenerateKeys)
    ∧ ("prompt".toList, Json.str b.prompt) ∈ serializeGenerateBody b
    ∧ callGenerate jparse resp = Except.ok j := by
  refine ⟨?_, ?_, ?_⟩
  · intro kv hkv
    rw [serializeGenerateBody] at hkv
    simp only [List.append_assoc, List.mem_append, List.mem_singleton] at hkv
    rcases hkv with h | h | h | h | h | h | h | h
    · rw [h]
      simp [allowedGenerateKeys]
    all_goals rw [optField_key _ _ _ _ h]
    all_goals simp [allowedGenerateKeys]
  · rw [serializeGenerateBody]
    simp
  · have hbody : (trimChars resp.body).isEmpty = false :=
      trimChars_take_nonblank resp.body 4000 hnb
    rw [callGenerate, requestJson]
    simp [hok, hbody, hnb, hparse]

/-- A concrete GenerateRequestBody with every optional field present. -/
def sampleGenerateBody : GenerateRequestBody :=
  { prompt := ('H' :: 'e' :: 'l' :: 'l' :: ['o'])
    max_new_tokens := some 64
    temperature := some 0
    top_p := some 1
    top_k := some 40
    stop := some [('.' :: [])]
    model := some ('m' :: [])
    cache := some true }

/-- The JSON value of a well-shaped generation response. -/
def sampleGenerateResponseJson : Json :=
  Json.obj [("model".toList, Json.str ('m' :: [])),
            ("output".toList, Json.str ('h' :: ['i'])),
            ("cached".toList, Json.bool false)]

/-- The raw JSON text behind sampleGenerateResponseJson. -/
def sampleGenerateResponseBody : Str :=
  Char.ofNat 123 ::
    ("\"model\":\"m\",\"output\":\"hi\",\"cached\":false".toList)
    ++ [Char.ofNat 125]

/-- A parse function that behaves like JSON.parse on the sample response
body. -/
def sampleGenerateParse : Str → Option Json :=
  fun s => if s = sampleGenerateResponseBody then some sampleGenerateResponseJson else none

/-- C1 witness: the contract exercised on a concrete request body and a
concrete 200 response. -/
theorem callGenerate_contract_witness :
    (∀ kv ∈ serializeGenerateBody sampleGenerateBody, kv.1 ∈ allowedGenerateKeys)
    ∧ ("prompt".toList, Json.str sampleGenerateBody.prompt)
        ∈ serializeGenerateBody sampleGenerateBody
    ∧ callGenerate sampleGenerateParse ⟨200, sampleGenerateResponseBody⟩
        = Except.ok sampleGenerateResponseJson := by
  exact callGenerate_contract sampleGenerateBody sampleGenerateParse
    ⟨200, sampleGenerateResponseBody⟩ sampleGenerateResponseJson
    (by decide) (by decide) rfl rfl

/-- C6: resolving an absent selector returns the default handle, resolving
an unknown selector fails with ModelNotFound and performs zero backend
invocations, and the Playground request body carries the model field
exactly when the trimmed model override is non-empty. -/
theorem resolve_and_model_override_spec :
    (∀ (reg : ModelRegistry) (h : BackendHandle),
      assocLookup reg.models reg.defaultModel = some h → resolve reg none = Except.ok h)
    ∧ (∀ (reg : ModelRegistry) (m : Str) (gen : BackendHandle → Str),
      assocLookup reg.models m = none →
        resolveAndGenerate reg (some m) gen = (Except.error ResolveError.ModelNotFound, 0))
    ∧ (∀ (prompt : Str) (mt tp : Int) (ov : Str),
      (assocLookup (serializeGenerateBody (handleRunGenerateBody prompt mt tp ov))
          ("model".toList)).isSome = !(trimChars ov).isEmpty) := by
  refine ⟨?_, ?_, ?_⟩
  · intro reg h hdef
    rw [resolve, hdef]
  · intro reg m gen hunk
    rw [resolveAndGenerate, resolve, hunk]
  · intro prompt mt tp ov
    cases hov : (trimChars ov).isEmpty with
    | true =>
      simp +decide [handleRunGenerateBody, serializeGenerateBody, optField, hov, assocLookup]
    | false =>
      simp +decide [handleRunGenerateBody, serializeGenerateBody, optField, hov, assocLookup]

/-- C6 witness: the routing facts evaluated on a concrete registry and the
override behaviour on concrete strings. -/
theorem resolve_and_model_override_spec_witness :
    resolve ⟨[(('a' :: []), ⟨('a' :: []), BackendKind.inProcess⟩)], ('a' :: [])⟩ none
        = Except.ok ⟨('a' :: []), BackendKind.inProcess⟩
    ∧ resolveAndGenerate ⟨[(('a' :: []), ⟨('a' :: []), BackendKind.inProcess⟩)], ('a' :: [])⟩
        (some ('b' :: [])) (fun h => h.id)
        = (Except.error ResolveError.ModelNotFound, 0)
    ∧ (assocLookup (serializeGenerateBody (handleRunGenerateBody ('p' :: []) 64 0 (' ' :: 'm' :: [' '])))
        ("model".toList)).isSome = !(trimChars (' ' :: 'm' :: [' '])).isEmpty := by
  exact ⟨resolve_and_model_override_spec.1 _ _ rfl,
    resolve_and_model_override_spec.2.1 _ _ _ rfl,
    resolve_and_model_override_spec.2.2 _ 64 0 _⟩

/-- C7: the X-API-Key header is sent exactly when an API key is configured
(set and non-empty) and carries that key; an absent or unknown credential
resolves to Unauthenticated with status 401; a known but deactivated
identity resolves to Disabled with status 403. -/
theorem authHeaders_and_resolveCredential_spec :
    (∀ k : Str, k ≠ [] → authHeaders (some k) = [("X-API-Key".toList, k)])
    ∧ authHeaders none = []
    ∧ authHeaders (some []) = []
    ∧ (∀ store : List (Str × CallerIdentity),
        resolveCredential store none = Except.error AuthError.Unauthenticated)
    ∧ (∀ (store : List (Str × CallerIdentity)) (c : Str), assocLookup store c = none →
        resolveCredential store (some c) = Except.error AuthError.Unauthenticated)
    ∧ (∀ (store : List (Str × CallerIdentity)) (c : Str) (idr : CallerIdentity),
        assocLookup store c = some idr → idr.active = false →
          resolveCredential store (some c) = Except.error AuthError.Disabled)
    ∧ authErrorStatus AuthError.Unauthenticated = 401
    ∧ authErrorStatus AuthError.Disabled = 403 := by
  refine ⟨?_, rfl, rfl, fun _ => rfl, ?_, ?_, rfl, rfl⟩
  · intro k hk
    have hE : k.isEmpty = false := by
      cases hE : k.isEmpty with
      | false => rfl
      | true => exact absurd (List.isEmpty_iff.mp hE) hk
    simp [authHeaders, hE]
  · intro store c hunk
    rw [resolveCredential, hunk]
  · intro store c idr hid hact
    rw [resolveCredential, hid]
    simp [hact]

/-- C7 witness: the header and resolver behaviour on concrete inputs. -/
theorem authHeaders_and_resolveCredential_spec_witness :
    authHeaders (some ('k' :: [])) = [("X-API-Key".toList, ('k' :: []))]
    ∧ resolveCredential [(('k' :: []), ⟨('u' :: []), false, 0, 10⟩)] (some ('z' :: []))
        = Except.error AuthError.Unauthenticated
    ∧ resolveCredential [(('k' :: []), ⟨('u' :: []), false, 0, 10⟩)] (some ('k' :: []))
        = Except.error AuthError.Disabled := by
  exact ⟨authHeaders_and_resolveCredential_spec.1 _ (by decide),
    authHeaders_and_resolveCredential_spec.2.2.2.2.1 _ _ rfl,
    authHeaders_and_resolveCredential_spec.2.2.2.2.2.1 _ _ _ rfl rfl⟩

/-- C5: admission is granted exactly when the remaining monthly quota is
positive and the in-flight count is below the ceiling; an exhausted quota
denies with QuotaExceeded and a reached ceiling denies with
ConcurrencyLimited, both leaving the caller state untouched; an admission
increments the in-flight counter and changes nothing else. -/
theorem admit_spec (c : CallerState) :
    ((admitRequest c).1 = AdmitDecision.admitted ↔ (c.used < c.quotaLimit ∧ c.inflight < c.ceiling))
    ∧ (c.quotaLimit ≤ c.used → admitRequest c = (AdmitDecision.denied AdmitError.QuotaExceeded, c))
    ∧ (c.used < c.quotaLimit → c.ceiling ≤ c.inflight →
        admitRequest c = (AdmitDecision.denied AdmitError.ConcurrencyLimited, c))
    ∧ ((admitRequest c).1 = AdmitDecision.admitted →
        (admitRequest c).2 = { c with inflight := c.inflight + 1 })
    ∧ (∀ e, (admitRequest c).1 = AdmitDecision.denied e → (admitRequest c).2 = c) := by
  by_cases hq : c.quotaLimit ≤ c.used
  · have hq2 : ¬ (c.used < c.quotaLimit) := not_lt.mpr hq
    refine ⟨?_, fun _ => by rw [admitRequest, if_pos hq], fun h _ => absurd h hq2, ?_, ?_⟩
    · rw [admitRequest, if_pos hq]
      simp [hq2]
    · rw [admitRequest, if_pos hq]
      intro h
      exact absurd h (by simp)
    · intro e _
      rw [admitRequest, if_pos hq]
  · have hq2 : c.used < c.quotaLimit := not_le.mp hq
    by_cases hc : c.ceiling ≤ c.inflight
    · have hc2 : ¬ (c.inflight < c.ceiling) := not_lt.mpr hc
      refine ⟨?_, fun h => absurd h hq, fun _ _ => by rw [admitRequest, if_neg hq, if_pos hc], ?_, ?_⟩
      · rw [admitRequest, if_neg hq, if_pos hc]
        simp [hc2]
      · rw [admitRequest, if_neg hq, if_pos hc]
        intro h
        exact absurd h (by simp)
      · intro e _
        rw [admitRequest, if_neg hq, if_pos hc]
    · have hc2 : c.inflight < c.ceiling := not_le.mp hc
      refine ⟨?_, fun h => absurd h hq, fun _ h => absurd h hc, ?_, ?_⟩
      · rw [admitRequest, if_neg hq, if_neg hc]
        simp [hq2, hc2]
      · intro _
        rw [admitRequest, if_neg hq, if_neg hc]
      · intro e he
        rw [admitRequest, if_neg hq, if_neg hc] at he
        exact absurd he (by simp)

/-- C5 witness: admission decisions evaluated on concrete caller states. -/
theorem admit_spec_witness :
    ((admitRequest ⟨10, 3, 0, 2⟩).1 = AdmitDecision.admitted ↔ (3 < 10 ∧ 0 < 2))
    ∧ admitRequest ⟨10, 10, 0, 2⟩ = (AdmitDecision.denied AdmitError.QuotaExceeded, ⟨10, 10, 0, 2⟩)
    ∧ admitRequest ⟨10, 3, 2, 2⟩ = (AdmitDecision.denied AdmitError.ConcurrencyLimited, ⟨10, 3, 2, 2⟩)
    ∧ (admitRequest ⟨10, 3, 0, 2⟩).2 = ⟨10, 3, 1, 2⟩ := by
  refine ⟨(admit_spec ⟨10, 3, 0, 2⟩).1, (admit_spec ⟨10, 10, 0, 2⟩).2.1 (by decide),
    (admit_spec ⟨10, 3, 2, 2⟩).2.2.1 (by decide) (by decide),
    (admit_spec ⟨10, 3, 0, 2⟩).2.2.2.1 (by decide)⟩

theorem fingerprint_ok (d : ParamDefaults) (m p : Str) (q : GenParams) (f : Fingerprint)
    (h : fingerprint d m p q = Except.ok f) : f = ⟨m, p, normalizeParams d q⟩ := by
  rw [fingerprint] at h
  split at h
  · exact absurd h (by simp)
  · split at h
    · exact absurd h (by simp)
    · injection h with h2
      exact h2.symm

/-- C3: fingerprinting is deterministic; a request that states the default
of max_new_tokens, temperature, top_p or top_k explicitly fingerprints
identically to one omitting it; and any change to the model id, the prompt
bytes or the normalised parameter set changes the key. -/
theorem fingerprint_spec (d : ParamDefaults) (hd : 0 ≤ d.max_new_tokens)
    (m m1 p p1 : Str) (q q1 : GenParams) :
    fingerprint d m p q = fingerprint d m p q
    ∧ fingerprint d m p { q with max_new_tokens := some d.max_new_tokens }
        = fingerprint d m p { q with max_new_tokens := none }
    ∧ fingerprint d m p { q with temperature := some d.temperature }
        = fingerprint d m p { q with temperature := none }
    ∧ fingerprint d m p { q with top_p := some d.top_p }
        = fingerprint d m p { q with top_p := none }
    ∧ fingerprint d m p { q with top_k := some d.top_k }
        = fingerprint d m p { q with top_k := none }
    ∧ (∀ f f1, fingerprint d m p q = Except.ok f → fingerprint d m1 p1 q1 = Except.ok f1 →
        (m ≠ m1 ∨ p ≠ p1 ∨ normalizeParams d q ≠ normalizeParams d q1) → f ≠ f1) := by
  have hneg : ¬ (d.max_new_tokens < 0) := not_lt.mpr hd
  refine ⟨rfl, ?_, ?_, ?_, ?_, ?_⟩
  · simp [fingerprint, normalizeParams, hneg]
  · simp [fingerprint, normalizeParams]
  · simp [fingerprint, normalizeParams]
  · simp [fingerprint, normalizeParams]
  · intro f f1 hf hf1 hdiff
    rw [fingerprint_ok d m p q f hf, fingerprint_ok d m1 p1 q1 f1 hf1]
    intro hEq
    rw [Fingerprint.mk.injEq] at hEq
    rcases hdiff with h | h | h
    · exact h hEq.1
    · exact h hEq.2.1
    · exact h hEq.2.2

/-- Concrete fingerprinting defaults: 64 tokens, temperature 0.7, top_p
0.95, top_k 40. -/
def sampleDefaults : ParamDefaults :=
  { max_new_tokens := 64
    temperature := ⟨7, 1⟩
    top_p := ⟨95, 2⟩
    top_k := 40 }

/-- C3 witness: an explicit default temperature and an omitted temperature
fingerprint identically, and two fingerprints of different model ids are
distinct keys. -/
theorem fingerprint_spec_witness :
    fingerprint sampleDefaults ('m' :: []) ('p' :: [])
        { ({} : GenParams) with temperature := some sampleDefaults.temperature }
      = fingerprint sampleDefaults ('m' :: []) ('p' :: []) { ({} : GenParams) with temperature := none }
    ∧ ((⟨('a' :: []), ('p' :: []), normalizeParams sampleDefaults {}⟩ : Fingerprint)
        ≠ ⟨('b' :: []), ('p' :: []), normalizeParams sampleDefaults {}⟩) := by
  refine ⟨(fingerprint_spec sampleDefaults (by decide) ('m' :: []) ('m' :: [])
      ('p' :: []) ('p' :: []) {} {}).2.2.1, ?_⟩
  exact (fingerprint_spec sampleDefaults (by decide) ('a' :: []) ('b' :: [])
      ('p' :: []) ('p' :: []) {} {}).2.2.2.2.2 _ _ rfl rfl (Or.inl (by decide))

theorem assocLookup_setEntry_self (s : CacheState) (fp : Nat) (v : FlightState) :
    assocLookup (setEntry s fp v) fp = some v := by
  induction s with
  | nil => simp [setEntry, assocLookup]
  | cons kv rest ih =>
    obtain ⟨k, w⟩ := kv
    by_cases h : k = fp
    · simp [setEntry, assocLookup, h]
    · simp [setEntry, assocLookup, h, ih]

theorem assocLookup_setEntry_other (s : CacheState) (f fp : Nat) (v : FlightState)
    (h : fp ≠ f) : assocLookup (setEntry s f v) fp = assocLookup s fp := by
  have hne : ¬ (f = fp) := fun he => h he.symm
  induction s with
  | nil => simp [setEntry, assocLookup, hne]
  | cons kv rest ih =>
    obtain ⟨k, w⟩ := kv
    by_cases hk : k = f
    · subst hk
      simp [setEntry, assocLookup, hne]
    · simp [setEntry, assocLookup, hk, ih]

theorem assocLookup_removeEntry_self (s : CacheState) (fp : Nat) :
    assocLookup (removeEntry s fp) fp = none := by
  induction s with
  | nil => simp [removeEntry, assocLookup]
  | cons kv rest ih =>
    obtain ⟨k, w⟩ := kv
    by_cases h : k = fp
    · simp [removeEntry, h, ih]
    · simp [removeEntry, assocLookup, h, ih]

theorem assocLookup_removeEntry_other (s : CacheState) (f fp : Nat)
    (h : fp ≠ f) : assocLookup (removeEntry s f) fp = assocLookup s fp := by
  have hne : ¬ (f = fp) := fun he => h he.symm
  induction s with
  | nil => simp [removeEntry]
  | cons kv rest ih =>
    obtain ⟨k, w⟩ := kv
    by_cases hk : k = f
    · subst hk
      simp [removeEntry, assocLookup, hne, ih]
    · simp [removeEntry, assocLookup, hk, ih]

theorem countInvocations_nil (fp : Nat) : countInvocations [] fp = 0 := rfl

theorem countInvocations_append (a b : List CacheOut) (fp : Nat) :
    countInvocations (a ++ b) fp = countInvocations a fp + countInvocations b fp := by
  simp [countInvocations, List.countP_append]

theorem countInvocations_map_replyResult (ws : List Nat) (f fp : Nat) (r : Str) :
    countInvocations (ws.map fun c => CacheOut.replyResult c f r) fp = 0 := by
  simp only [countInvocations, List.countP_eq_zero]
  intro a ha
  rcases List.mem_map.mp ha with ⟨x, _, hx⟩
  rw [← hx]
  simp [isInvoke]

theorem countInvocations_map_replyFailure (ws : List Nat) (f fp : Nat) :
    countInvocations (ws.map fun c => CacheOut.replyFailure c f) fp = 0 := by
  simp only [countInvocations, List.countP_eq_zero]
  intro a ha
  rcases List.mem_map.mp ha with ⟨x, _, hx⟩
  rw [← hx]
  simp [isInvoke]

/-- One cache step never invokes more backend work than it is entitled to:
the invocations it emits plus the slack it leaves are bounded by the
completion credit of the event plus the slack it started from. -/
theorem cacheStep_budget (s : CacheState) (e : CacheEv) (fp : Nat) :
    countInvocations (cacheStep s e).2 fp + fpSlack (cacheStep s e).1 fp
      ≤ (if finishTouches e fp then 1 else 0) + fpSlack s fp := by
  cases e with
  | call c f =>
    cases hl : assocLookup s f with
    | some w =>
      cases w with
      | stored r =>
        simp only [cacheStep, hl, finishTouches]
        simp [countInvocations, List.countP_cons, isInvoke]
      | inflight ws =>
        simp only [cacheStep, hl, finishTouches]
        by_cases hfp : fp = f
        · subst hfp
          simp [countInvocations, fpSlack, assocLookup_setEntry_self, hl]
        · simp [countInvocations, fpSlack, assocLookup_setEntry_other s f fp _ hfp]
    | none =>
      simp only [cacheStep, hl, finishTouches]
      by_cases hfp : fp = f
      · subst hfp
        simp [countInvocations, List.countP_cons, isInvoke, fpSlack,
          assocLookup_setEntry_self, hl]
      · have hne : ¬ (f = fp) := fun he => hfp he.symm
        simp [countInvocations, List.countP_cons, isInvoke, fpSlack,
          assocLookup_setEntry_other s f fp _ hfp, hne]
  | finishOk f r =>
    cases hl : assocLookup s f with
    | some w =>
      cases w with
      | stored r2 =>
        simp only [cacheStep, hl]
        simp [countInvocations]
      | inflight ws =>
        simp only [cacheStep, hl]
        by_cases hfp : fp = f
        · subst hfp
          simp [countInvocations_map_replyResult, fpSlack, assocLookup_setEntry_self, hl,
            finishTouches]
        · simp [countInvocations_map_replyResult, fpSlack,
            assocLookup_setEntry_other s f fp _ hfp]
    | none =>
      simp only [cacheStep, hl]
      simp [countInvocations]
  | finishErr f =>
    cases hl : assocLookup s f with
    | some w =>
      cases w with
      | stored r2 =>
        simp only [cacheStep, hl]
        simp [countInvocations]
      | inflight ws =>
        simp only [cacheStep, hl]
        by_cases hfp : fp = f
        · subst hfp
          simp [countInvocations_map_replyFailure, fpSlack, assocLookup_removeEntry_self, hl,
            finishTouches]
        · simp [countInvocations_map_replyFailure, fpSlack,
            assocLookup_removeEntry_other s f fp hfp]
    | none =>
      simp only [cacheStep, hl]
      simp [countInvocations]

/-- C4: the single-flight completion cache. A backend invocation is
emitted only by a call that found neither an entry nor an in-flight
computation, and that caller becomes the single leader; a successful
completion stores the result and in the same atomic step hands exactly
that stored result to every waiter; a failed completion leaves no entry
and hands the failure to every waiter; and along any interleaving of
events, the number of backend invocations for a fingerprint never exceeds
the number of its completion events plus one, so at most one computation
per fingerprint is ever in flight. -/
theorem cache_single_flight :
    (∀ (s : CacheState) (e : CacheEv) (fp : Nat),
      CacheOut.invokeBackend fp ∈ (cacheStep s e).2 →
        assocLookup s fp = none
        ∧ ∃ c, e = CacheEv.call c fp
          ∧ assocLookup (cacheStep s e).1 fp = some (FlightState.inflight [c]))
    ∧ (∀ (s : CacheState) (fp : Nat) (ws : List Nat) (r : Str),
        assocLookup s fp = some (FlightState.inflight ws) →
          assocLookup (cacheStep s (CacheEv.finishOk fp r)).1 fp = some (FlightState.stored r)
          ∧ (cacheStep s (CacheEv.finishOk fp r)).2
              = ws.map (fun c => CacheOut.replyResult c fp r))
    ∧ (∀ (s : CacheState) (fp : Nat) (ws : List Nat),
        assocLookup s fp = some (FlightState.inflight ws) →
          assocLookup (cacheStep s (CacheEv.finishErr fp)).1 fp = none
          ∧ (cacheStep s (CacheEv.finishErr fp)).2
              = ws.map (fun c => CacheOut.replyFailure c fp))
    ∧ (∀ (evs : List CacheEv) (s : CacheState) (fp : Nat),
        countInvocations (cacheRun s evs).2 fp ≤ countFinishes evs fp + fpSlack s fp) := by
  refine ⟨?_, ?_, ?_, ?_⟩
  · intro s e fp hmem
    cases e with
    | call c f =>
      cases hl : assocLookup s f with
      | some w =>
        cases w with
        | stored r =>
          rw [cacheStep, hl] at hmem
          simp at hmem
        | inflight ws =>
          rw [cacheStep, hl] at hmem
          simp at hmem
      | none =>
        rw [cacheStep, hl] at hmem
        simp only [List.mem_singleton, CacheOut.invokeBackend.injEq] at hmem
        subst hmem
        exact ⟨hl, c, rfl, by rw [cacheStep, hl]; exact assocLookup_setEntry_self s _ _⟩
    | finishOk f r =>
      rw [cacheStep] at hmem
      cases hl : assocLookup s f with
      | some w =>
        cases w with
        | stored r2 => rw [hl] at hmem; simp at hmem
        | inflight ws =>
          rw [hl] at hmem
          simp only [List.mem_map] at hmem
          rcases hmem with ⟨x, _, hx⟩
          exact absurd hx (by simp)
      | none => rw [hl] at hmem; simp at hmem
    | finishErr f =>
      rw [cacheStep] at hmem
      cases hl : assocLookup s f with
      | some w =>
        cases w with
        | stored r2 => rw [hl] at hmem; simp at hmem
        | inflight ws =>
          rw [hl] at hmem
          simp only [List.mem_map] at hmem
          rcases hmem with ⟨x, _, hx⟩
          exact absurd hx (by simp)
      | none => rw [hl] at hmem; simp at hmem
  · intro s fp ws r hl
    rw [cacheStep, hl]
    exact ⟨assocLookup_setEntry_self s fp _, rfl⟩
  · intro s fp ws hl
    rw [cacheStep, hl]
    exact ⟨assocLookup_removeEntry_self s fp, rfl⟩
  · intro evs
    induction evs with
    | nil =>
      intro s fp
      simp [cacheRun, countInvocations, countFinishes]
    | cons e es ih =>
      intro s fp
      rw [cacheRun]
      rw [countInvocations_append]
      have h1 := cacheStep_budget s e fp
      have h2 := ih (cacheStep s e).1 fp
      have h3 : countFinishes (e :: es) fp
          = countFinishes es fp + (if finishTouches e fp then 1 else 0) := by
        simp [countFinishes, List.countP_cons]
      omega

/-- C4 witness: one concrete interleaving. Two callers share fingerprint 0
while it is absent: the first leads and invokes the backend once, the
second joins as a waiter; the successful finish stores the result and
releases both with it, and the bound on invocations holds. -/
theorem cache_single_flight_witness :
    (assocLookup ([] : CacheState) 0 = none
      ∧ ∃ c, CacheEv.call 5 0 = CacheEv.call c 0
        ∧ assocLookup (cacheStep [] (CacheEv.call 5 0)).1 0 = some (FlightState.inflight [c]))
    ∧ (assocLookup [(0, FlightState.inflight [5, 7])] 0 = some (FlightState.inflight [5, 7])
      ∧ assocLookup (cacheStep [(0, FlightState.inflight [5, 7])]
            (CacheEv.finishOk 0 ('r' :: []))).1 0 = some (FlightState.stored ('r' :: []))
      ∧ (cacheStep [(0, FlightState.inflight [5, 7])] (CacheEv.finishOk 0 ('r' :: []))).2
          = [CacheOut.replyResult 5 0 ('r' :: []), CacheOut.replyResult 7 0 ('r' :: [])]
      ∧ assocLookup (cacheStep [(0, FlightState.inflight [5, 7])] (CacheEv.finishErr 0)).1 0
          = none)
    ∧ countInvocations (cacheRun []
        [CacheEv.call 5 0, CacheEv.call 7 0, CacheEv.finishOk 0 ('r' :: [])]).2 0
      ≤ countFinishes [CacheEv.call 5 0, CacheEv.call 7 0, CacheEv.finishOk 0 ('r' :: [])] 0
        + fpSlack [] 0 := by
  refine ⟨cache_single_flight.1 [] (CacheEv.call 5 0) 0 (by simp [cacheStep, assocLookup]), ?_,
    cache_single_flight.2.2.2 [CacheEv.call 5 0, CacheEv.call 7 0,
      CacheEv.finishOk 0 ('r' :: [])] [] 0⟩
  have h2 := cache_single_flight.2.1 [(0, FlightState.inflight [5, 7])] 0 [5, 7] ('r' :: []) rfl
  have h3 := cache_single_flight.2.2.1 [(0, FlightState.inflight [5, 7])] 0 [5, 7] rfl
  exact ⟨rfl, h2.1, by rw [h2.2]; rfl, h3.1⟩

end LlmServer
